import Mathlib

/-!
Shallow embedding of `email_to_remarkable.py` (class `EmailToRemarkableSync`).

External collaborators (the IMAP server, the filesystem, the reMarkable
cloud API, and the Python stdlib MIME decoder) are modelled as explicit
environments: each fallible external call is given its outcome as input,
and the embedded functions mirror the Python control flow over those
outcomes.  Scratch-file paths are identified by attachment filename,
since the download directory is a fixed prefix shared by all of them.
-/

namespace EmailToRemarkable

/-- The single quote character, used in the validation error message. -/
def sq : String := String.singleton (Char.ofNat 39)

/-! ## Configuration and `_validate_config` (lines 26-41) -/

/-- The configuration dictionary, restricted to the keys the embedded code
reads.  `none` models absence of the key from the dict. -/
structure Config where
  imap_server : Option String
  email_username : Option String
  email_password : Option String
  mailbox_to_check : Option String
  remarkable_dest_folder : Option String
  remarkable_token : Option String
  remarkable_token_path : Option String
deriving DecidableEq, Repr

/-- `required_keys` list from `_validate_config`. -/
def required_keys : List String :=
  ["imap_server", "email_username", "email_password",
   "mailbox_to_check", "remarkable_dest_folder"]

/-- Dictionary lookup `key in self.config` / `self.config[key]` for the
keys the validator inspects. -/
def cfg_get (c : Config) (key : String) : Option String :=
  if key = "imap_server" then c.imap_server
  else if key = "email_username" then c.email_username
  else if key = "email_password" then c.email_password
  else if key = "mailbox_to_check" then c.mailbox_to_check
  else if key = "remarkable_dest_folder" then c.remarkable_dest_folder
  else none

/-- The message of `ValueError(f"Required configuration key '{key}' is missing")`. -/
def missing_key_msg (key : String) : String :=
  "Required configuration key " ++ sq ++ key ++ sq ++ " is missing"

/-- The message of `ValueError("Email password is required but not provided")`. -/
def empty_password_msg : String := "Email password is required but not provided"

/-- The `for key in required_keys` loop: raise on the first key absent
from the configuration. -/
def check_keys (c : Config) : List String → Except String Unit
  | [] => .ok ()
  | k :: rest =>
    if (cfg_get c k).isNone then .error (missing_key_msg k)
    else check_keys c rest

/-- `_validate_config`: the key-presence loop, then the truthiness check
`if not self.config["email_password"]`.  (When control reaches the second
check the password key is guaranteed present; the `none` arm is dead code
and re-raises the missing-key error.) -/
def _validate_config (c : Config) : Except String Unit :=
  match check_keys c required_keys with
  | .error e => .error e
  | .ok () =>
    match c.email_password with
    | some p => if p = "" then .error empty_password_msg else .ok ()
    | none => .error (missing_key_msg "email_password")

/-! ## `decode_subject` (lines 43-49) -/

/-- Python `str.strip()`: drop leading and trailing whitespace. -/
def py_strip (s : String) : String :=
  String.mk (((s.data.dropWhile Char.isWhitespace).reverse.dropWhile Char.isWhitespace).reverse)

/-- One element of the list returned by the stdlib `decode_header`:
either an already-decoded text run, or a byte run with an optional
charset name. -/
inductive HeaderPart where
  | str (s : String)
  | bytes (data : List Nat) (charset : Option String)
deriving DecidableEq, Repr

/-- `part.decode(encoding or "utf-8", errors="replace")` restricted to the
ASCII range: bytes below 128 decode to themselves, anything else becomes
the U+FFFD replacement character (the `errors="replace"` behavior common
to the charsets involved). -/
def decode_bytes (data : List Nat) : String :=
  String.mk (data.map (fun b => if b < 128 then Char.ofNat b else Char.ofNat 0xFFFD))

/-- One step of the generator expression inside `decode_subject`. -/
def decode_part : HeaderPart → String
  | .str s => s
  | .bytes data _charset => decode_bytes data

/-- `decode_subject`: join the decoded parts and strip surrounding
whitespace.  Its argument is the list `decode_header(raw_subject)`. -/
def decode_subject (parts : List HeaderPart) : String :=
  py_strip (String.join (parts.map decode_part))

/-! ## `upload_to_remarkable` (lines 51-94) -/

/-- `collection.metadata` with the one field the code reads. -/
structure Metadata where
  visible_name : String
deriving DecidableEq, Repr

/-- One value of `api.document_collections` (a remote folder). -/
structure Collection where
  metadata : Metadata
  uuid : String
deriving DecidableEq, Repr

/-- Environment of one `upload_to_remarkable` call: the session folder
list and the outcomes of the three fallible externals (reading the local
file, `Document.new_pdf`, `api.upload`). -/
structure UploadEnv where
  collections : List Collection
  read_ok : Bool
  new_pdf_ok : Bool
  api_upload_ok : Bool
deriving DecidableEq, Repr

/-- Observable outcome of one `upload_to_remarkable` call: the returned
boolean, the parent uuid assigned to the document (if any), whether the
folder-not-found warning was printed, and whether `api.upload` was
reached. -/
structure UploadResult where
  success : Bool
  parent : Option String
  warned : Bool
  submitted : Bool
deriving DecidableEq, Repr

/-- Python truthiness of the `destination_folder` optional string. -/
def opt_truthy : Option String → Bool
  | none => false
  | some s => s ≠ ""

/-- The `for collection in api.document_collections.values(): ... break`
search loop. -/
def find_collection (dest : String) : List Collection → Option Collection
  | [] => none
  | col :: rest =>
    if col.metadata.visible_name = dest then some col
    else find_collection dest rest

/-- `upload_to_remarkable`: read the file, build the document, resolve
the destination folder when one is given (first exact display-name match
wins; a miss warns and leaves the parent unset), then submit.  Any raised
exception is caught and turned into a `False` return. -/
def upload_to_remarkable (env : UploadEnv) (destination_folder : Option String) :
    UploadResult :=
  if env.read_ok = false then
    { success := false, parent := none, warned := false, submitted := false }
  else if env.new_pdf_ok = false then
    { success := false, parent := none, warned := false, submitted := false }
  else
    let parent :=
      if opt_truthy destination_folder then
        (find_collection ((destination_folder).getD "") env.collections).map
          (fun col => col.uuid)
      else none
    let warned :=
      opt_truthy destination_folder &&
        (find_collection ((destination_folder).getD "") env.collections).isNone
    { success := env.api_upload_ok, parent := parent, warned := warned,
      submitted := true }

/-! ## `_setup_remarkable_api` (lines 96-128) -/

/-- Environment of one `_setup_remarkable_api` call: whether the `API`
constructor and the `get_documents` sync succeed, and the filesystem (a
path maps to its contents, `none` meaning `FileNotFoundError`). -/
structure ApiEnv where
  ctor_ok : Bool
  get_documents_ok : Bool
  fs : String → Option String

/-- Observable outcome of `_setup_remarkable_api`: the token carried by
the returned client (`none` when the function returns `None`), and the
error lines it printed. -/
structure SetupResult where
  client : Option String
  messages : List String
deriving DecidableEq, Repr

/-- The f-string `f"❌ Error: reMarkable token not found at {token_path}"`. -/
def token_not_found_msg (token_path : String) : String :=
  "❌ Error: reMarkable " ++ ("token not found at " ++ token_path)

/-- Generic message for the catch-all `except` clause of
`_setup_remarkable_api`. -/
def rm_connect_error_msg : String := "❌ Error connecting to reMarkable"

/-- `_setup_remarkable_api`: construct the API client, then take the
token directly from configuration when truthy, otherwise read and trim
the configured token file (a missing file reports the token-not-found
error and returns `None`); finally sync the folder listing.  Exceptions
from the constructor or the sync are caught and turned into `None`. -/
def _setup_remarkable_api (env : ApiEnv) (c : Config) : SetupResult :=
  if env.ctor_ok = false then
    { client := none, messages := [rm_connect_error_msg] }
  else
    let token0 := c.remarkable_token
    if opt_truthy token0 then
      if env.get_documents_ok then
        { client := some (token0.getD ""), messages := [] }
      else
        { client := none, messages := [rm_connect_error_msg] }
    else
      let token_path := (c.remarkable_token_path).getD "/etc/remarkable/token"
      match env.fs token_path with
      | none =>
        { client := none, messages := [token_not_found_msg token_path] }
      | some contents =>
        if env.get_documents_ok then
          { client := some (py_strip contents), messages := [] }
        else
          { client := none, messages := [rm_connect_error_msg] }

/-! ## Attachment extraction (lines 176-191 of `process_emails`) -/

/-- One part yielded by `msg.walk()`, with the attributes the extraction
loop reads.  `content_type` is the resolved value of
`part.get_content_type()`; `has_disposition` is whether
`part.get("Content-Disposition")` is not `None`; `filename` is
`part.get_filename()` (`none` for Python `None`); `payload_is_bytes` is
whether `part.get_payload(decode=True)` returned byte data. -/
structure Part where
  content_type : String
  has_disposition : Bool
  filename : Option String
  payload_is_bytes : Bool
deriving DecidableEq, Repr

/-- `part.get_content_maintype()`: the segment of the content type before
the slash. -/
def get_content_maintype (p : Part) : String :=
  String.mk (p.content_type.data.takeWhile (fun ch => ch ≠ Char.ofNat 47))

/-- The condition of the claim: a part qualifies when its top-level type
is not `multipart`, it declares a content-disposition, its content type
is exactly `application/pdf`, its filename is truthy, and its decoded
payload is byte data. -/
def qualifies (p : Part) : Bool :=
  (get_content_maintype p ≠ "multipart") && p.has_disposition &&
    (p.content_type = "application/pdf") && opt_truthy p.filename &&
    p.payload_is_bytes

/-- The `for part in msg.walk()` extraction loop, mirroring its chain of
`continue`s and nested `if`s: the parts whose payloads get written to
scratch storage, in traversal order. -/
def walk_extract : List Part → List Part
  | [] => []
  | p :: rest =>
    if get_content_maintype p = "multipart" ∨ p.has_disposition = false then
      walk_extract rest
    else if p.content_type = "application/pdf" then
      match p.filename with
      | some f =>
        if f ≠ "" then
          if p.payload_is_bytes then p :: walk_extract rest
          else walk_extract rest
        else walk_extract rest
      | none => walk_extract rest
    else walk_extract rest

/-- The `downloaded_files` list built by the extraction loop, identifying
each scratch file by its attachment filename (the download directory is a
common fixed prefix). -/
def extract_names (parts : List Part) : List String :=
  (walk_extract parts).map (fun p => p.filename.getD "")

/-! ## Per-message processing (lines 165-219 of `process_emails`) -/

/-- Outcome of one external call inside the IMAP `try` block: normal
return, an `imaplib.IMAP4.error`, or any other exception. -/
inductive Outcome where
  | ok
  | imapErr
  | otherErr
deriving DecidableEq, Repr

/-- Environment of one loop iteration over an unread message:
the outcome of `mail.fetch`, whether the fetched payload is byte data,
the parts of the parsed message, the result of each
`upload_to_remarkable` call (in attempt order; the call itself never
raises), and the outcome of `mail.store` should it be reached. -/
structure MsgEnv where
  fetch_outcome : Outcome
  raw_is_bytes : Bool
  parts : List Part
  upload_oks : List Bool
  store_outcome : Outcome
deriving DecidableEq, Repr

/-- Observable outcome of one loop iteration that did not raise: whether
`+FLAGS (\Seen)` was stored for the message, how many uploads were
attempted, and which of the message's scratch files remain on disk. -/
structure MsgResult where
  marked_read : Bool
  uploads_attempted : Nat
  scratch : List String
deriving DecidableEq, Repr

/-- The `for pdf_path in downloaded_files` upload loop: each pair is a
scratch file with its upload result; a success `os.remove`s the file,
a failure clears `all_uploads_succeeded`.  Returns the remaining scratch
files and the final flag. -/
def upload_loop : List (String × Bool) → List String → Bool → List String × Bool
  | [], scratch, all => (scratch, all)
  | (f, ok) :: rest, scratch, all =>
    if ok then upload_loop rest (scratch.erase f) all
    else upload_loop rest scratch false

/-- One iteration of the unread-message loop.  A message whose fetched
payload is not byte data is skipped by `continue` (no store, no uploads);
a message with no downloaded files is marked read; otherwise each file is
uploaded and the message is marked read only when every upload succeeded.
Extraction writes each distinct filename once (a repeat overwrites), so
the scratch files present before the uploads are `files.dedup`. -/
def process_message (m : MsgEnv) : Except Outcome MsgResult :=
  match m.fetch_outcome with
  | .imapErr => .error .imapErr
  | .otherErr => .error .otherErr
  | .ok =>
    if m.raw_is_bytes = false then
      .ok { marked_read := false, uploads_attempted := 0, scratch := [] }
    else
      let files := extract_names m.parts
      if files.isEmpty then
        match m.store_outcome with
        | .ok => .ok { marked_read := true, uploads_attempted := 0, scratch := [] }
        | .imapErr => .error .imapErr
        | .otherErr => .error .otherErr
      else
        let res := upload_loop (files.zip m.upload_oks) files.dedup true
        if res.2 then
          match m.store_outcome with
          | .ok =>
            .ok { marked_read := true, uploads_attempted := files.length,
                  scratch := res.1 }
          | .imapErr => .error .imapErr
          | .otherErr => .error .otherErr
        else
          .ok { marked_read := false, uploads_attempted := files.length,
                scratch := res.1 }

/-- The whole unread-message loop; the first raised exception aborts it. -/
def msgs_loop : List MsgEnv → Except Outcome (List MsgResult)
  | [] => .ok []
  | m :: rest =>
    match process_message m with
    | .error e => .error e
    | .ok r =>
      match msgs_loop rest with
      | .error e => .error e
      | .ok rs => .ok (r :: rs)

/-! ## The pass (`process_emails`, lines 130-232) -/

/-- Environment of one pass: whether `_setup_remarkable_api` returned a
client, the outcomes of the connection-phase IMAP calls
(`IMAP4_SSL(...)`, `login`, `select`, `search`), and the per-message
environments for the unread ids the search returned. -/
structure PassEnv where
  api_ok : Bool
  connect_outcome : Outcome
  login_outcome : Outcome
  select_outcome : Outcome
  search_outcome : Outcome
  msgs : List MsgEnv
deriving DecidableEq, Repr

/-- Observable outcome of one pass: the returned boolean, whether an IMAP
session was opened (the `IMAP4_SSL` constructor returned, i.e. `mail` is
not `None`), and whether `mail.logout()` ran. -/
structure PassResult where
  success : Bool
  conn_opened : Bool
  logged_out : Bool
deriving DecidableEq, Repr

/-- The body of the `try` block after the connection phase: abort on a
login/select/search exception, return `True` early when no unread ids
were found, otherwise run the unread-message loop and return `True`. -/
def pass_body (env : PassEnv) : Except Outcome Bool :=
  match env.login_outcome with
  | .imapErr => .error .imapErr
  | .otherErr => .error .otherErr
  | .ok =>
  match env.select_outcome with
  | .imapErr => .error .imapErr
  | .otherErr => .error .otherErr
  | .ok =>
  match env.search_outcome with
  | .imapErr => .error .imapErr
  | .otherErr => .error .otherErr
  | .ok =>
    if env.msgs.isEmpty then .ok true
    else
      match msgs_loop env.msgs with
      | .error e => .error e
      | .ok _ => .ok true

/-- `process_emails`: abort before the `try` block when the reMarkable
setup failed; `mail` stays `None` when the `IMAP4_SSL` constructor
raises, so the `finally` block skips `logout`; once the constructor has
returned, the two `except` clauses turn any raised error into a `False`
return and the `finally` block always logs out. -/
def process_emails (env : PassEnv) : PassResult :=
  if env.api_ok = false then
    { success := false, conn_opened := false, logged_out := false }
  else
    match env.connect_outcome with
    | .imapErr =>
      { success := false, conn_opened := false, logged_out := false }
    | .otherErr =>
      { success := false, conn_opened := false, logged_out := false }
    | .ok =>
      { success := match pass_body env with
          | .ok b => b
          | .error _ => false,
        conn_opened := true, logged_out := true }

/-! ## Concrete sample inputs used by witnesses and counterexamples -/

/-- A configuration whose only flaw is the missing server key. -/
def cfg_missing_server : Config :=
  { imap_server := none, email_username := some "user",
    email_password := some "pw", mailbox_to_check := some "INBOX",
    remarkable_dest_folder := some "From Email", remarkable_token := none,
    remarkable_token_path := none }

/-- A configuration with every required key present, a non-empty
password, and an empty destination-folder value. -/
def cfg_empty_dest : Config :=
  { imap_server := some "", email_username := some "user",
    email_password := some "pw", mailbox_to_check := some "INBOX",
    remarkable_dest_folder := some "", remarkable_token := none,
    remarkable_token_path := none }

/-- A configuration with no direct token and the default token-file
path. -/
def cfg_no_token : Config :=
  { imap_server := some "imap.example.com", email_username := some "user",
    email_password := some "pw", mailbox_to_check := some "INBOX",
    remarkable_dest_folder := some "From Email", remarkable_token := none,
    remarkable_token_path := none }

/-- An API environment whose filesystem holds no files. -/
def api_env_no_file : ApiEnv :=
  { ctor_ok := true, get_documents_ok := true, fs := fun _ => none }

/-- An upload environment whose session knows one folder, named
`Test Folder`, and whose external calls all succeed. -/
def upload_env_test_folder : UploadEnv :=
  { collections := [{ metadata := { visible_name := "Test Folder" }, uuid := "uuid-1" }],
    read_ok := true, new_pdf_ok := true, api_upload_ok := true }

/-- A qualifying PDF part carrying filename `a.pdf`. -/
def pdf_part_a : Part :=
  { content_type := "application/pdf", has_disposition := true,
    filename := some "a.pdf", payload_is_bytes := true }

/-- A qualifying PDF part carrying filename `b.pdf`. -/
def pdf_part_b : Part :=
  { content_type := "application/pdf", has_disposition := true,
    filename := some "b.pdf", payload_is_bytes := true }

/-- A non-qualifying multipart container part. -/
def multipart_part : Part :=
  { content_type := "multipart/mixed", has_disposition := false,
    filename := none, payload_is_bytes := false }

/-- A message whose fetch succeeds but whose payload is not byte data,
even though it carries a qualifying PDF part. -/
def msg_nonbytes : MsgEnv :=
  { fetch_outcome := .ok, raw_is_bytes := false, parts := [pdf_part_a],
    upload_oks := [], store_outcome := .ok }

/-- A message with two qualifying PDF attachments whose first upload
succeeds and whose second upload fails. -/
def msg_two_pdfs : MsgEnv :=
  { fetch_outcome := .ok, raw_is_bytes := true,
    parts := [pdf_part_a, multipart_part, pdf_part_b],
    upload_oks := [true, false], store_outcome := .ok }

/-! ## Helper lemmas -/

/-- The key-presence loop accepts exactly the configurations where every
listed key is present. -/
theorem check_keys_ok_iff (c : Config) (ks : List String) :
    check_keys c ks = .ok () ↔ ∀ k ∈ ks, (cfg_get c k).isSome := by
  induction ks with
  | nil => simp [check_keys]
  | cons k rest ih =>
    cases hv : cfg_get c k with
    | none =>
      simp only [check_keys, hv, Option.isNone_none, if_pos]
      constructor
      · intro he; cases he
      · intro hall
        have := hall k (List.mem_cons_self k rest)
        rw [hv] at this
        cases this
    | some v =>
      simp only [check_keys, hv, Option.isNone_some, Bool.false_eq_true, if_false, ih]
      constructor
      · intro hall k0 hk0
        rcases List.mem_cons.mp hk0 with rfl | hmem
        · rw [hv]; rfl
        · exact hall k0 hmem
      · intro hall k0 hk0
        exact hall k0 (List.mem_cons_of_mem _ hk0)

/-- When the key-presence loop raises, its message names a key that is
indeed listed and missing. -/
theorem check_keys_error_spec (c : Config) (ks : List String) (e : String) :
    check_keys c ks = .error e →
    ∃ k, k ∈ ks ∧ cfg_get c k = none ∧ e = missing_key_msg k := by
  induction ks with
  | nil => intro h; cases h
  | cons k rest ih =>
    cases hv : cfg_get c k with
    | none =>
      simp only [check_keys, hv, Option.isNone_none, if_pos]
      intro he
      cases he
      exact ⟨k, List.mem_cons_self k rest, hv, rfl⟩
    | some v =>
      simp only [check_keys, hv, Option.isNone_some, Bool.false_eq_true, if_false]
      intro he
      rcases ih he with ⟨k0, hk0, hnone, hmsg⟩
      exact ⟨k0, List.mem_cons_of_mem _ hk0, hnone, hmsg⟩

/-- `_validate_config` succeeds exactly when every required key is
present and the password is non-empty. -/
theorem validate_ok_iff (c : Config) :
    _validate_config c = .ok () ↔
      ((∀ k ∈ required_keys, (cfg_get c k).isSome) ∧ c.email_password ≠ some "") := by
  unfold _validate_config
  cases hck : check_keys c required_keys with
  | error e =>
    constructor
    · intro h; cases h
    · intro ⟨hall, _⟩
      have hok := (check_keys_ok_iff c required_keys).mpr hall
      rw [hck] at hok
      cases hok
  | ok u =>
    cases u
    have hall := (check_keys_ok_iff c required_keys).mp hck
    have hpw : (cfg_get c "email_password").isSome :=
      hall "email_password" (by simp [required_keys])
    have hpw2 : c.email_password.isSome := hpw
    cases hp : c.email_password with
    | none => rw [hp] at hpw2; cases hpw2
    | some p =>
      by_cases hp0 : p = ""
      · subst hp0
        simp only [hp, if_pos, reduceIte]
        constructor
        · intro h; cases h
        · intro ⟨_, hne⟩; exact absurd rfl hne
      · simp only [hp0, if_false, reduceIte]
        constructor
        · intro _
          refine ⟨hall, ?_⟩
          intro hcon
          exact hp0 (Option.some_inj.mp hcon)
        · intro _; trivial

/-- The extraction loop keeps exactly the qualifying parts, in order. -/
theorem walk_extract_eq_filter (parts : List Part) :
    walk_extract parts = parts.filter qualifies := by
  induction parts with
  | nil => rfl
  | cons p rest ih =>
    by_cases hm : get_content_maintype p = "multipart"
    · simp [walk_extract, qualifies, hm, ih]
    · cases hd : p.has_disposition with
      | false => simp [walk_extract, qualifies, hm, hd, ih]
      | true =>
        by_cases hct : p.content_type = "application/pdf"
        · cases hf : p.filename with
          | none => simp [walk_extract, qualifies, opt_truthy, hm, hd, hct, hf, ih]
          | some f =>
            by_cases hf0 : f = ""
            · simp [walk_extract, qualifies, opt_truthy, hm, hd, hct, hf, hf0, ih]
            · cases hb : p.payload_is_bytes with
              | false =>
                simp [walk_extract, qualifies, opt_truthy, hm, hd, hct, hf, hf0, hb, ih]
              | true =>
                simp [walk_extract, qualifies, opt_truthy, hm, hd, hct, hf, hf0, hb, ih]
        · simp [walk_extract, qualifies, hm, hd, hct, ih]

/-- Running the upload loop on a scratch directory holding exactly the
files still to be uploaded (plus an untouched prefix, all names distinct)
leaves the untouched prefix and the files whose upload failed, and
reports success exactly when every upload succeeded. -/
theorem upload_loop_spec (pairs : List (String × Bool)) :
    ∀ (pre : List String) (all : Bool),
      (pre ++ pairs.map Prod.fst).Nodup →
      upload_loop pairs (pre ++ pairs.map Prod.fst) all =
        (pre ++ (pairs.filter (fun x => !x.2)).map Prod.fst,
         all && pairs.all (fun x => x.2)) := by
  induction pairs with
  | nil => intro pre all _; simp [upload_loop]
  | cons fk rest ih =>
    intro pre all hnd
    obtain ⟨f, k⟩ := fk
    have hf_notin_pre : f ∉ pre := by
      have hdisj := List.disjoint_of_nodup_append hnd
      intro hmem
      exact hdisj hmem (by simp)
    cases k with
    | true =>
      have h1 : (pre ++ ((f, true) :: rest).map Prod.fst).erase f
          = pre ++ rest.map Prod.fst := by
        rw [List.map_cons, List.erase_append_right _ hf_notin_pre, List.erase_cons_head]
      have hnd2 : (pre ++ rest.map Prod.fst).Nodup := by
        refine List.Nodup.sublist ?_ hnd
        refine List.Sublist.append_left ?_ pre
        rw [List.map_cons]
        exact List.sublist_cons_self _ _
      calc upload_loop ((f, true) :: rest) (pre ++ ((f, true) :: rest).map Prod.fst) all
          = upload_loop rest ((pre ++ ((f, true) :: rest).map Prod.fst).erase f) all := by
            simp [upload_loop]
        _ = upload_loop rest (pre ++ rest.map Prod.fst) all := by rw [h1]
        _ = (pre ++ (rest.filter (fun x => !x.2)).map Prod.fst,
             all && rest.all (fun x => x.2)) := ih pre all hnd2
        _ = (pre ++ (((f, true) :: rest).filter (fun x => !x.2)).map Prod.fst,
             all && ((f, true) :: rest).all (fun x => x.2)) := by
            simp
    | false =>
      have hnd3 : ((pre ++ [f]) ++ rest.map Prod.fst).Nodup := by
        rw [List.append_assoc, List.singleton_append]
        rw [List.map_cons] at hnd
        exact hnd
      calc upload_loop ((f, false) :: rest) (pre ++ ((f, false) :: rest).map Prod.fst) all
          = upload_loop rest ((pre ++ [f]) ++ rest.map Prod.fst) false := by
            simp [upload_loop, List.append_assoc]
        _ = ((pre ++ [f]) ++ (rest.filter (fun x => !x.2)).map Prod.fst,
             false && rest.all (fun x => x.2)) := ih (pre ++ [f]) false hnd3
        _ = (pre ++ (((f, false) :: rest).filter (fun x => !x.2)).map Prod.fst,
             all && ((f, false) :: rest).all (fun x => x.2)) := by
            simp [List.append_assoc]

/-- `all` over a mapped list tests the composite predicate. -/
theorem all_comp_map {α β : Type} (f : α → β) (p : β → Bool) (l : List α) :
    (l.map f).all p = l.all (fun a => p (f a)) := by
  induction l with
  | nil => rfl
  | cons a t ih => simp [List.all_cons, ih]

/-- The folder-search loop is `List.find?` on display names: the first
exact match wins. -/
theorem find_collection_eq_find (dest : String) (cols : List Collection) :
    find_collection dest cols =
      cols.find? (fun col => col.metadata.visible_name == dest) := by
  induction cols with
  | nil => rfl
  | cons col rest ih =>
    by_cases h : col.metadata.visible_name = dest
    · simp [find_collection, List.find?, h]
    · have hb : (col.metadata.visible_name == dest) = false := by
        simp [beq_iff_eq, h]
      simp [find_collection, List.find?, h, ih, hb]

/-! ## Claim theorems -/

/-- C3: construction fails with a configuration error exactly when one of
the five required keys is absent or the password is present but empty
(the error naming a missing key in the former case); every other
configuration is accepted.  The validator is a pure function of the
configuration, so the check involves no I/O. -/
theorem C3_validate_config_gate (c : Config) :
    ((_validate_config c = .ok ()) ↔
      ((∀ k ∈ required_keys, (cfg_get c k).isSome) ∧ c.email_password ≠ some "")) ∧
    ((∃ k ∈ required_keys, cfg_get c k = none) →
      ∃ k0 ∈ required_keys, cfg_get c k0 = none ∧
        _validate_config c = .error (missing_key_msg k0)) ∧
    ((∀ k ∈ required_keys, (cfg_get c k).isSome) → c.email_password = some "" →
      _validate_config c = .error empty_password_msg) := by
  refine ⟨validate_ok_iff c, ?_, ?_⟩
  · rintro ⟨k, hk, hnone⟩
    cases hck : check_keys c required_keys with
    | error e =>
      rcases check_keys_error_spec c required_keys e hck with ⟨k0, hk0, hnone0, hmsg⟩
      refine ⟨k0, hk0, hnone0, ?_⟩
      unfold _validate_config
      rw [hck, hmsg]
    | ok u =>
      cases u
      have := (check_keys_ok_iff c required_keys).mp hck k hk
      rw [hnone] at this
      cases this
  · intro hall hempty
    have hck : check_keys c required_keys = .ok () :=
      (check_keys_ok_iff c required_keys).mpr hall
    unfold _validate_config
    rw [hck, hempty]
    simp

/-- C3 witness: a configuration missing only the server key is rejected
with an error naming a missing key. -/
theorem C3_validate_config_gate_witness :
    ∃ k0 ∈ required_keys, cfg_get cfg_missing_server k0 = none ∧
      _validate_config cfg_missing_server = .error (missing_key_msg k0) :=
  (C3_validate_config_gate cfg_missing_server).2.1
    ⟨"imap_server", by simp [required_keys], by simp [cfg_get, cfg_missing_server]⟩

/-- C4 counterexample: the configuration `cfg_empty_dest` is accepted by
the constructor although its server and destination-folder values are
empty strings, refuting the claim that every required key of an accepted
configuration is non-empty. -/
theorem C4_counterexample :
    _validate_config cfg_empty_dest = .ok () ∧
    cfg_empty_dest.imap_server = some "" ∧
    cfg_empty_dest.remarkable_dest_folder = some "" := by
  refine ⟨?_, rfl, rfl⟩
  rfl

/-- C4 (amended): for every configuration the constructor accepts, every
required key is present, and the password in particular is non-empty;
the other required keys may hold empty strings. -/
theorem C4_accepted_config_invariant (c : Config) :
    _validate_config c = .ok () →
      (∀ k ∈ required_keys, (cfg_get c k).isSome) ∧ c.email_password ≠ some "" :=
  fun h => (validate_ok_iff c).mp h

/-- C4 witness: the amended invariant holds for the concrete accepted
configuration `cfg_empty_dest`. -/
theorem C4_accepted_config_invariant_witness :
    (∀ k ∈ required_keys, (cfg_get cfg_empty_dest k).isSome) ∧
      cfg_empty_dest.email_password ≠ some "" :=
  C4_accepted_config_invariant cfg_empty_dest (by rfl)

/-- C9 counterexample: `decode_subject` is not the identity on the plain
ASCII subject `" a"` — the final strip removes its leading blank. -/
theorem C9_counterexample :
    decode_subject [HeaderPart.str " a"] ≠ " a" ∧
    decode_subject [HeaderPart.str " a"] = "a" := by
  exact ⟨by decide, by decide⟩

/-- C9 (amended): `decode_subject` returns a plain ASCII subject
unchanged when the subject carries no leading or trailing whitespace
(the final strip removes any there is), and an encoded-word subject
decodes to the concatenation of its decoded parts. -/
theorem C9_decode_subject_strip :
    (∀ s : String, py_strip s = s → decode_subject [HeaderPart.str s] = s) ∧
    decode_subject [HeaderPart.bytes [104, 105] none, HeaderPart.str " there"] =
      "hi there" := by
  constructor
  · intro s hs
    simp only [decode_subject, List.map_cons, List.map_nil, decode_part]
    rw [show String.join [s] = s by simp [String.join]]
    exact hs
  · decide

/-- C9 witness: a whitespace-free ASCII subject is returned unchanged. -/
theorem C9_decode_subject_strip_witness :
    decode_subject [HeaderPart.str "Invoice"] = "Invoice" :=
  C9_decode_subject_strip.1 "Invoice" (by decide)

/-- C5: credential resolution uses a truthy configured token first,
otherwise the stripped contents of the configured token file; a missing
token file yields no client and the token-not-found report; and when the
configuration has no truthy token and the file is absent, no client is
returned. -/
theorem C5_setup_api_token_resolution (env : ApiEnv) (c : Config) :
    (opt_truthy c.remarkable_token = true → env.ctor_ok = true →
      env.get_documents_ok = true →
      (_setup_remarkable_api env c).client = c.remarkable_token) ∧
    (∀ contents, opt_truthy c.remarkable_token = false → env.ctor_ok = true →
      env.fs (c.remarkable_token_path.getD "/etc/remarkable/token") = some contents →
      env.get_documents_ok = true →
      (_setup_remarkable_api env c).client = some (py_strip contents)) ∧
    (opt_truthy c.remarkable_token = false → env.ctor_ok = true →
      env.fs (c.remarkable_token_path.getD "/etc/remarkable/token") = none →
      _setup_remarkable_api env c =
        { client := none,
          messages :=
            [token_not_found_msg (c.remarkable_token_path.getD "/etc/remarkable/token")] }) ∧
    (opt_truthy c.remarkable_token = false →
      env.fs (c.remarkable_token_path.getD "/etc/remarkable/token") = none →
      (_setup_remarkable_api env c).client = none) := by
  refine ⟨?_, ?_, ?_, ?_⟩
  · intro ht h1 h2
    cases htok : c.remarkable_token with
    | none => rw [htok] at ht; simp [opt_truthy] at ht
    | some t =>
      rw [htok] at ht
      simp [_setup_remarkable_api, htok, ht, h1, h2]
  · intro contents ht h1 hfs h2
    simp [_setup_remarkable_api, ht, h1, hfs, h2]
  · intro ht h1 hfs
    simp [_setup_remarkable_api, ht, h1, hfs]
  · intro ht hfs
    cases h1 : env.ctor_ok with
    | false => simp [_setup_remarkable_api, h1]
    | true => simp [_setup_remarkable_api, ht, h1, hfs]

/-- C5 witness: with no configured token and an empty filesystem,
resolution returns no client and reports the token-not-found error for
the default path. -/
theorem C5_setup_api_token_resolution_witness :
    _setup_remarkable_api api_env_no_file cfg_no_token =
      { client := none, messages := [token_not_found_msg "/etc/remarkable/token"] } :=
  (C5_setup_api_token_resolution api_env_no_file cfg_no_token).2.2.1 rfl rfl rfl

/-- C6: with a truthy destination folder name, the document's parent is
the uuid of the first session folder whose display name matches exactly;
a miss warns, leaves the parent unset, and submission still happens; the
call returns whatever the submission reports. -/
theorem C6_upload_folder_resolution (env : UploadEnv) (d : String) :
    env.read_ok = true → env.new_pdf_ok = true → d ≠ "" →
    ((upload_to_remarkable env (some d)).parent =
      (env.collections.find? (fun col => col.metadata.visible_name == d)).map
        (fun col => col.uuid)) ∧
    (env.collections.find? (fun col => col.metadata.visible_name == d) = none →
      (upload_to_remarkable env (some d)).warned = true ∧
      (upload_to_remarkable env (some d)).parent = none) ∧
    (∀ col, env.collections.find? (fun col => col.metadata.visible_name == d) = some col →
      (upload_to_remarkable env (some d)).parent = some col.uuid) ∧
    (upload_to_remarkable env (some d)).submitted = true ∧
    (upload_to_remarkable env (some d)).success = env.api_upload_ok := by
  intro h1 h2 hd
  have hu : upload_to_remarkable env (some d) =
      { success := env.api_upload_ok,
        parent := (env.collections.find? (fun col => col.metadata.visible_name == d)).map
          (fun col => col.uuid),
        warned := (env.collections.find? (fun col => col.metadata.visible_name == d)).isNone,
        submitted := true } := by
    simp [upload_to_remarkable, h1, h2, opt_truthy, hd, find_collection_eq_find]
  refine ⟨by rw [hu], ?_, ?_, by rw [hu], by rw [hu]⟩
  · intro hnone
    rw [hu, hnone]
    exact ⟨rfl, rfl⟩
  · intro col hcol
    rw [hu, hcol]
    rfl

/-- C6 witness: destination `Test Folder` matches the single session
folder and parents the document under `uuid-1`; submission happens. -/
theorem C6_upload_folder_resolution_witness :
    (upload_to_remarkable upload_env_test_folder (some "Test Folder")).parent =
      some "uuid-1" ∧
    (upload_to_remarkable upload_env_test_folder (some "Test Folder")).submitted = true := by
  have h := C6_upload_folder_resolution upload_env_test_folder "Test Folder"
    rfl rfl (by decide)
  exact ⟨h.2.2.1 { metadata := { visible_name := "Test Folder" }, uuid := "uuid-1" } rfl,
    h.2.2.2.1⟩

/-- C10: with an empty destination folder name — which `_validate_config`
accepts for `remarkable_dest_folder` — folder resolution is skipped: the
result does not depend on the session's folder list, no warning is
logged, the document stays unparented, submission happens, and the call
succeeds whenever the submission does. -/
theorem C10_upload_empty_destination (env : UploadEnv) :
    env.read_ok = true → env.new_pdf_ok = true →
    (upload_to_remarkable env (some "") =
      { success := env.api_upload_ok, parent := none, warned := false,
        submitted := true }) ∧
    (∀ cols, upload_to_remarkable { env with collections := cols } (some "") =
      upload_to_remarkable env (some "")) ∧
    _validate_config cfg_empty_dest = .ok () := by
  intro h1 h2
  refine ⟨?_, ?_, by rfl⟩
  · simp [upload_to_remarkable, h1, h2, opt_truthy]
  · intro cols
    simp [upload_to_remarkable, h1, h2, opt_truthy]

/-- C10 witness: with every external call succeeding, uploading with the
empty destination name returns success, unparented and unwarned. -/
theorem C10_upload_empty_destination_witness :
    upload_to_remarkable upload_env_test_folder (some "") =
      { success := true, parent := none, warned := false, submitted := true } :=
  (C10_upload_empty_destination upload_env_test_folder rfl rfl).1

/-- C7: the pass logs the mailbox session out exactly when one was
opened, on every control path of `process_emails`. -/
theorem C7_logout_iff_opened (env : PassEnv) :
    (process_emails env).logged_out = (process_emails env).conn_opened := by
  rcases env with ⟨api, co, lo, se, sr, msgs⟩
  cases api <;> cases co <;> rfl

/-- C8 counterexample: a fetched message whose payload is not byte data
is skipped without being marked read, refuting the claim that it is
treated like the no-attachment case (which would mark it read). -/
theorem C8_counterexample :
    process_message msg_nonbytes =
      .ok { marked_read := false, uploads_attempted := 0, scratch := [] } ∧
    ¬ ∃ r, process_message msg_nonbytes = .ok r ∧ r.marked_read = true := by
  refine ⟨rfl, ?_⟩
  rintro ⟨r, hr, hm⟩
  have hpm : process_message msg_nonbytes =
      Except.ok { marked_read := false, uploads_attempted := 0, scratch := [] } := rfl
  rw [hpm] at hr
  injection hr with h
  rw [← h] at hm
  simp at hm

/-- C8 (amended): a message whose fetched payload is not byte data is
skipped — no store, no uploads, no scratch files — and left unread, and
the loop continues with the remaining messages. -/
theorem C8_nonbytes_skipped_unread (m : MsgEnv) (rest : List MsgEnv) :
    m.fetch_outcome = .ok → m.raw_is_bytes = false →
    process_message m =
      .ok { marked_read := false, uploads_attempted := 0, scratch := [] } ∧
    msgs_loop (m :: rest) =
      (msgs_loop rest).map
        (fun rs => { marked_read := false, uploads_attempted := 0, scratch := [] } :: rs) := by
  intro h1 h2
  have hpm : process_message m =
      .ok { marked_read := false, uploads_attempted := 0, scratch := [] } := by
    rcases m with ⟨fo, rib, parts, oks, so⟩
    cases h1
    cases h2
    rfl
  refine ⟨hpm, ?_⟩
  simp only [msgs_loop, hpm]
  cases hrest : msgs_loop rest <;> simp [Except.map]

/-- C8 witness: the concrete non-bytes message is left unread and the
loop carries on. -/
theorem C8_nonbytes_skipped_unread_witness :
    process_message msg_nonbytes =
      .ok { marked_read := false, uploads_attempted := 0, scratch := [] } ∧
    msgs_loop [msg_nonbytes] =
      (msgs_loop []).map
        (fun rs => { marked_read := false, uploads_attempted := 0, scratch := [] } :: rs) :=
  C8_nonbytes_skipped_unread msg_nonbytes [] rfl rfl

/-- C2: a part is yielded by the extraction loop exactly when its
top-level content type is not `multipart`, it declares a
content-disposition, its content type is exactly `application/pdf`, its
filename is truthy, and its decoded payload is byte data; non-qualifying
parts are skipped, and the yield order is the traversal order. -/
theorem C2_extraction_characterization (parts : List Part) :
    walk_extract parts = parts.filter qualifies ∧
    (∀ p : Part, p ∈ walk_extract parts ↔
      (p ∈ parts ∧ get_content_maintype p ≠ "multipart" ∧
        p.has_disposition = true ∧ p.content_type = "application/pdf" ∧
        opt_truthy p.filename = true ∧ p.payload_is_bytes = true)) ∧
    (walk_extract parts).Sublist parts := by
  refine ⟨walk_extract_eq_filter parts, ?_, ?_⟩
  · intro p
    rw [walk_extract_eq_filter, List.mem_filter]
    simp [qualifies, and_assoc]
  · rw [walk_extract_eq_filter]
    exact List.filter_sublist parts

/-- Unfolding of `process_message` for a message whose fetch and store
succeed and whose payload is byte data. -/
theorem process_message_ok_bytes (parts : List Part) (oks : List Bool) :
    process_message
        { fetch_outcome := .ok, raw_is_bytes := true, parts := parts,
          upload_oks := oks, store_outcome := .ok } =
      (if (extract_names parts).isEmpty then
        .ok { marked_read := true, uploads_attempted := 0, scratch := [] }
      else
        let res := upload_loop ((extract_names parts).zip oks)
          (extract_names parts).dedup true
        if res.2 then
          .ok { marked_read := true,
                uploads_attempted := (extract_names parts).length, scratch := res.1 }
        else
          .ok { marked_read := false,
                uploads_attempted := (extract_names parts).length,
                scratch := res.1 }) := by
  rfl

/-- C1: for one unread message whose fetch and store succeed and whose
qualifying attachments have pairwise-distinct scratch files: with no
qualifying attachment the message is marked read with no upload
attempted; when every upload succeeds it is marked read and every
scratch file is deleted; when any upload fails it is left unread, the
failed attachments' scratch files are retained and the successful ones'
are deleted. -/
theorem C1_message_processing_outcomes (m : MsgEnv) :
    m.fetch_outcome = .ok → m.raw_is_bytes = true → m.store_outcome = .ok →
    (extract_names m.parts).Nodup →
    m.upload_oks.length = (extract_names m.parts).length →
    ((extract_names m.parts = [] →
      process_message m =
        .ok { marked_read := true, uploads_attempted := 0, scratch := [] }) ∧
     (m.upload_oks.all id = true →
      process_message m =
        .ok { marked_read := true,
              uploads_attempted := (extract_names m.parts).length, scratch := [] }) ∧
     (m.upload_oks.all id = false →
      process_message m =
        .ok { marked_read := false,
              uploads_attempted := (extract_names m.parts).length,
              scratch := (((extract_names m.parts).zip m.upload_oks).filter
                (fun x => !x.2)).map Prod.fst })) := by
  intro h1 h2 h3 hnd hlen
  rcases m with ⟨fo, rib, parts, oks, so⟩
  cases h1
  cases h2
  cases h3
  simp only at hnd hlen ⊢
  have hdedup : (extract_names parts).dedup = extract_names parts :=
    List.dedup_eq_self.mpr hnd
  have hfst : ((extract_names parts).zip oks).map Prod.fst = extract_names parts :=
    List.map_fst_zip _ _ (le_of_eq hlen.symm)
  have hsnd : ((extract_names parts).zip oks).map Prod.snd = oks :=
    List.map_snd_zip _ _ (le_of_eq hlen)
  have hallzip : ((extract_names parts).zip oks).all (fun x => x.2) = oks.all id := by
    have h1 := all_comp_map Prod.snd id ((extract_names parts).zip oks)
    rw [hsnd] at h1
    exact h1.symm
  have hloop : upload_loop ((extract_names parts).zip oks)
      (extract_names parts).dedup true =
      ((((extract_names parts).zip oks).filter (fun x => !x.2)).map Prod.fst,
       oks.all id) := by
    have hspec := upload_loop_spec ((extract_names parts).zip oks) [] true
      (by rw [List.nil_append, hfst]; exact hnd)
    rw [List.nil_append, List.nil_append, hfst] at hspec
    rw [hdedup, hspec, Bool.true_and, hallzip]
  refine ⟨?_, ?_, ?_⟩
  · intro hempty
    have hie : (extract_names parts).isEmpty = true := by rw [hempty]; rfl
    rw [process_message_ok_bytes, hie]
    simp
  · intro hall
    by_cases hemp : extract_names parts = []
    · have hie : (extract_names parts).isEmpty = true := by rw [hemp]; rfl
      rw [process_message_ok_bytes, hie]
      simp [hemp]
    · have hie : (extract_names parts).isEmpty = false := by
        cases hE : extract_names parts with
        | nil => exact absurd hE hemp
        | cons a l => rfl
      have hscr : (((extract_names parts).zip oks).filter (fun x => !x.2)).map
          Prod.fst = [] := by
        rw [List.map_eq_nil_iff, List.filter_eq_nil_iff]
        intro x hx
        have hx2 : x.2 = true :=
          List.all_eq_true.mp (by rw [hallzip]; exact hall) x hx
        simp [hx2]
      rw [process_message_ok_bytes, hie]
      simp only [Bool.false_eq_true, if_false]
      simp [hloop, hall, hscr]
  · intro hfail
    have hne : oks ≠ [] := by
      intro h0
      rw [h0] at hfail
      simp at hfail
    have hemp : extract_names parts ≠ [] := by
      intro h0
      rw [h0] at hlen
      simp only [List.length_nil] at hlen
      exact hne (List.length_eq_zero.mp hlen)
    have hie : (extract_names parts).isEmpty = false := by
      cases hE : extract_names parts with
      | nil => exact absurd hE hemp
      | cons a l => rfl
    rw [process_message_ok_bytes, hie]
    simp only [Bool.false_eq_true, if_false]
    simp [hloop, hfail]

/-- C2 witness: a message with one qualifying PDF part and one multipart
container yields exactly the PDF part. -/
theorem C2_extraction_characterization_witness :
    walk_extract [pdf_part_a, multipart_part] = [pdf_part_a] := by
  have h := (C2_extraction_characterization [pdf_part_a, multipart_part]).1
  rw [h]
  rfl

/-- C1 witness: the message with attachments `a.pdf` (upload succeeds)
and `b.pdf` (upload fails) is left unread after two upload attempts, with
`a.pdf` deleted from scratch and `b.pdf` retained. -/
theorem C1_message_processing_outcomes_witness :
    process_message msg_two_pdfs =
      .ok { marked_read := false, uploads_attempted := 2, scratch := ["b.pdf"] } := by
  have h := (C1_message_processing_outcomes msg_two_pdfs rfl rfl rfl
    (by decide) (by decide)).2.2 (by decide)
  rw [h]
  rfl

end EmailToRemarkable
